import Mathlib

/-!
Verification of the OSC-to-ATEM bridge mapper (`mapper.py`).

The development shallowly embeds the `Mapper` class: registries are
association lists in Python-dict insertion order, handlers are pure
functions returning the ordered list of observable effects (collaborator
invocations, socket connects and sends) together with an optional
uncaught Python exception.
-/

namespace OSCtoAtem

/-- A capability record as stored in `_atem_method_cache` /
`_hd_method_cache`: the original-case method name and its ordered
parameter-name list (the bound callable itself is abstracted: invoking
it is an observable effect). -/
structure CapabilityRecord where
  name : String
  params : List String
deriving DecidableEq, Repr

/-- A method cache (`dict`): association list keyed by lowercased name,
kept in Python-dict insertion order. -/
abbrev Registry := List (String × CapabilityRecord)

/-- Python `cache[key]` / `key in cache` lookup on the dict model. -/
def dict_get (cache : Registry) (key : String) : Option CapabilityRecord :=
  (cache.find? (fun p => p.1 == key)).map Prod.snd

/-- Python dict assignment `cache[key] = info`: overwrites in place if
the key exists (keeping its position), otherwise appends. -/
def dict_set (cache : Registry) (key : String) (info : CapabilityRecord) : Registry :=
  if cache.any (fun p => p.1 == key) then
    cache.map (fun p => if p.1 == key then (key, info) else p)
  else cache ++ [(key, info)]

/-- Python `str.lower()` (character-wise; method names are ASCII). -/
def str_lower (s : String) : String :=
  String.mk (s.data.map Char.toLower)

/-- Python `s.startswith(p)`. -/
def starts_with (s p : String) : Bool :=
  p.data.isPrefixOf s.data

/-- Python slicing `s[n:]`. -/
def str_drop (s : String) (n : Nat) : String :=
  String.mk (s.data.drop n)

/-- One attribute yielded by `dir(collaborator)` during discovery:
its name, whether it is callable, whether `inspect.signature` succeeds
on it, and (when it does) its parameter names. -/
structure Attr where
  name : String
  callable : Bool
  introspectable : Bool
  params : List String
deriving DecidableEq, Repr

/-- The discovery loop shared by `_discover_atem_methods` and
`_discover_hd_methods`: for each attribute, if it is callable and its
name does not start with `_`, and its signature can be introspected,
store a record under the lowercased name; otherwise skip it. -/
def discover_methods : List Attr → Registry → Registry
  | [], cache => cache
  | a :: rest, cache =>
    if a.callable && !(starts_with a.name "_") then
      if a.introspectable then
        discover_methods rest (dict_set cache (str_lower a.name) ⟨a.name, a.params⟩)
      else
        discover_methods rest cache
    else
      discover_methods rest cache

/-- `osc_address.lstrip('/').lower()` as done at the top of
`_find_atem_method` / `_find_hd_method`. -/
def clean_address (oscAddress : String) : String :=
  str_lower (String.mk (oscAddress.data.dropWhile (fun c => c == '/')))

/-- Python `needle in hay` on character lists: some suffix of `hay` has
`needle` as a prefix (the empty needle is contained in everything). -/
def chars_contain (needle : List Char) : List Char → Bool
  | [] => needle.isEmpty
  | c :: rest => needle.isPrefixOf (c :: rest) || chars_contain needle rest

/-- Python `needle in hay` on strings (substring containment). -/
def str_contains (hay needle : String) : Bool :=
  chars_contain needle.data hay.data

/-- `_find_atem_method` / `_find_hd_method` (their bodies are identical,
modulo which cache they read): normalize the address, try a direct
match, then the prefixes `exec`, `set`, `get` in that order, then the
first cache entry whose key contains the address as a substring; `none`
when nothing matches. -/
def find_method (cache : Registry) (oscAddress : String) : Option CapabilityRecord :=
  let clean := clean_address oscAddress
  match dict_get cache clean with
  | some info => some info
  | none =>
    match dict_get cache ("exec" ++ clean) with
    | some info => some info
    | none =>
      match dict_get cache ("set" ++ clean) with
      | some info => some info
      | none =>
        match dict_get cache ("get" ++ clean) with
        | some info => some info
        | none =>
          (cache.find? (fun p => str_contains p.1 clean)).map Prod.snd

/-- The argument-shaping `if/elif` chain shared by
`handle_raw_atem_message` and `handle_raw_hyperdeck_message`: given the
parameter names and the message arguments, return the `method_type`
label the code logs and the argument list the method is called with.
In the first branch the code calls `method(args[0])`; under its guard
`len(args) >= 1`, `args.take 1` is exactly `[args[0]]`. -/
def adapt_call {α : Type} (params : List String) (args : List α) : String × List α :=
  if params.length = 1 ∧ args.length ≥ 1 then
    ("Single parameter", args.take 1)
  else if params.length = args.length then
    ("Direct parameters", args)
  else if params.length = 0 then
    ("No parameters", [])
  else
    ("Partial parameters", args.take params.length)

/-- An uncaught Python exception escaping a handler. -/
inductive PyErr
  | indexError
  | attributeError
deriving DecidableEq, Repr

/-- Observable effects of one message handling, in program order. -/
inductive Effect
  | invoke (methodName : String) (args : List String)
  | hdInvoke (methodName : String) (args : List String)
  | hdClearClips
  | hdAddClip (path : String)
  | connect (host : String) (port : Nat)
  | send (data : String)
deriving DecidableEq, Repr

/-- `handle_raw_atem_message`: `/ping` is acknowledged and the handler
returns at once; otherwise the resolver runs, a miss is logged and
dropped, and a hit is invoked with the adapted arguments. -/
def handle_raw_atem_message (cache : Registry) (address : String)
    (args : List String) : List Effect :=
  if address == "/ping" then
    []
  else
    match find_method cache address with
    | none => []
    | some info => [Effect.invoke info.name (adapt_call info.params args).2]

/-- `handle_raw_hyperdeck_message`: same as the ATEM raw handler but
without the `/ping` special case, invoking on the HyperDeck. -/
def handle_raw_hyperdeck_message (cache : Registry) (address : String)
    (args : List String) : List Effect :=
  match find_method cache address with
  | none => []
  | some info => [Effect.hdInvoke info.name (adapt_call info.params args).2]

/-- `handle_osc_message`: the routing tree. `/raw/atem/` and `/raw/hd/`
strip their prefixes and delegate to the raw handlers; `/hd/load_clip`
rejects an empty argument list and otherwise clears then adds one clip;
the four `/atem/...` side-channel commands are a sequence of independent
`if` statements, each opening a socket to port 9993 and sending one
line; `/atem/stream_on` reads `args[0]` and `args[1]` after connecting,
so with fewer than two arguments an uncaught IndexError escapes there
and no later statement runs. Any other address falls through every
branch and the function returns having done nothing. -/
def handle_osc_message (atemCache hdCache : Registry) (switcheraddress : String)
    (address : String) (args : List String) : List Effect × Option PyErr :=
  if starts_with address "/raw/atem/" then
    (handle_raw_atem_message atemCache (str_drop address 10) args, none)
  else if starts_with address "/raw/hd/" then
    (handle_raw_hyperdeck_message hdCache (str_drop address 8) args, none)
  else if starts_with address "/hd/load_clip" then
    match args with
    | [] => ([], none)
    | filePath :: _ => ([Effect.hdClearClips, Effect.hdAddClip filePath], none)
  else
    let e1 := if starts_with address "/atem/record_on" then
      [Effect.connect switcheraddress 9993, Effect.send "record\n"] else []
    let e2 := if starts_with address "/atem/record_off" then
      [Effect.connect switcheraddress 9993, Effect.send "stop\n"] else []
    if starts_with address "/atem/stream_on" then
      match args with
      | url :: key :: _ =>
        let e3 := [Effect.connect switcheraddress 9993,
                   Effect.send ("stream start: url: " ++ url ++ " key: " ++ key ++ "\n")]
        let e4 := if starts_with address "/atem/stream_off" then
          [Effect.connect switcheraddress 9993, Effect.send "stream stop\n"] else []
        (e1 ++ e2 ++ e3 ++ e4, none)
      | _ => (e1 ++ e2 ++ [Effect.connect switcheraddress 9993], some PyErr.indexError)
    else
      let e4 := if starts_with address "/atem/stream_off" then
        [Effect.connect switcheraddress 9993, Effect.send "stream stop\n"] else []
      (e1 ++ e2 ++ e4, none)

/-- The attribute names a `Mapper` instance carries, with the key lists
of its dict-valued attributes as payload (other attributes carry `[]`):
exactly the six assignments in `__init__`; no other method of the class
assigns an instance attribute. -/
def mapper_instance_attrs (atemKeys hdKeys : List String) : List (String × List String) :=
  [("switcher", []), ("hd", []), ("switcheraddress", []), ("logger", []),
   ("_atem_method_cache", atemKeys), ("_hd_method_cache", hdKeys)]

/-- `get_available_methods`: reads `self._method_cache` and prefixes
each key with `/`; an attribute read on a name the instance does not
have raises AttributeError. -/
def get_available_methods (instanceAttrs : List (String × List String)) :
    Except PyErr (List String) :=
  match instanceAttrs.find? (fun p => p.1 == "_method_cache") with
  | none => Except.error PyErr.attributeError
  | some p => Except.ok (p.2.map (fun name => "/" ++ name))

/-- Helper: any entry of `dict_set cache key info` was already in the
cache or is the freshly written `(key, info)` pair. -/
theorem dict_set_mem (cache : Registry) (key : String) (info : CapabilityRecord)
    (p : String × CapabilityRecord) (hp : p ∈ dict_set cache key info) :
    p ∈ cache ∨ p = (key, info) := by
  unfold dict_set at hp
  split at hp
  · rcases List.mem_map.1 hp with ⟨q, hq, hq2⟩
    by_cases h : (q.1 == key) = true
    · rw [if_pos h] at hq2
      exact Or.inr hq2.symm
    · rw [if_neg h] at hq2
      exact Or.inl (hq2 ▸ hq)
  · rcases List.mem_append.1 hp with h | h
    · exact Or.inl h
    · exact Or.inr (List.mem_singleton.1 h)

/-- Helper: every entry produced by the discovery loop either was in the
starting cache or comes from a callable, public, introspectable
attribute, stored under its lowercased name. -/
theorem discover_methods_mem (attrs : List Attr) :
    ∀ (cache : Registry) (p : String × CapabilityRecord),
      p ∈ discover_methods attrs cache →
      p ∈ cache ∨ ∃ a, a ∈ attrs ∧ a.callable = true ∧ starts_with a.name "_" = false ∧
        a.introspectable = true ∧ p = (str_lower a.name, ⟨a.name, a.params⟩) := by
  induction attrs with
  | nil =>
    intro cache p hp
    exact Or.inl hp
  | cons a rest ih =>
    intro cache p hp
    unfold discover_methods at hp
    by_cases hc : (a.callable && !(starts_with a.name "_")) = true
    · rw [if_pos hc] at hp
      simp only [Bool.and_eq_true, Bool.not_eq_true'] at hc
      by_cases hi : a.introspectable = true
      · rw [if_pos hi] at hp
        rcases ih _ p hp with h | ⟨b, hb, h1, h2, h3, h4⟩
        · rcases dict_set_mem _ _ _ _ h with h' | h'
          · exact Or.inl h'
          · exact Or.inr ⟨a, List.mem_cons_self a rest, hc.1, hc.2, hi, h'⟩
        · exact Or.inr ⟨b, List.mem_cons_of_mem a hb, h1, h2, h3, h4⟩
      · rw [if_neg hi] at hp
        rcases ih _ p hp with h | ⟨b, hb, h1, h2, h3, h4⟩
        · exact Or.inl h
        · exact Or.inr ⟨b, List.mem_cons_of_mem a hb, h1, h2, h3, h4⟩
    · rw [if_neg hc] at hp
      rcases ih _ p hp with h | ⟨b, hb, h1, h2, h3, h4⟩
      · exact Or.inl h
      · exact Or.inr ⟨b, List.mem_cons_of_mem a hb, h1, h2, h3, h4⟩

/-- C8: after registry construction (the discovery loop starting from
the empty dict built in `__init__`), every key is the lowercase form of
the name of a callable attribute whose name does not start with the
private marker `_` and whose signature could be introspected; in
particular non-introspectable operations leave no record. -/
theorem registry_keys_from_public_callables (attrs : List Attr) (key : String)
    (info : CapabilityRecord) (hmem : (key, info) ∈ discover_methods attrs []) :
    ∃ a, a ∈ attrs ∧ a.callable = true ∧ starts_with a.name "_" = false ∧
      a.introspectable = true ∧ key = str_lower a.name ∧
      info = ⟨a.name, a.params⟩ := by
  rcases discover_methods_mem attrs [] (key, info) hmem with h | ⟨a, ha, h1, h2, h3, h4⟩
  · cases h
  · rw [Prod.mk.injEq] at h4
    exact ⟨a, ha, h1, h2, h3, h4.1, h4.2⟩

/-- Witness for C8 on a concrete collaborator surface: the discovered
key `setprograminputvideosource` traces back to the public callable
`setProgramInputVideoSource`, while the private `_internal` attribute
leaves no record. -/
theorem registry_keys_from_public_callables_witness :
    ∃ a, a ∈ [Attr.mk "setProgramInputVideoSource" true true ["mE", "videoSource"],
              Attr.mk "_internal" true true []] ∧
      a.callable = true ∧ starts_with a.name "_" = false ∧
      a.introspectable = true ∧ "setprograminputvideosource" = str_lower a.name ∧
      (⟨"setProgramInputVideoSource", ["mE", "videoSource"]⟩ : CapabilityRecord) =
        ⟨a.name, a.params⟩ :=
  registry_keys_from_public_callables _ _ _ (by decide)

/-- C3: the resolver's priority order — an exact match on the cleaned
address wins; failing that the `exec`, `set`, `get` prefixed names are
tried in exactly that order; failing all four, the result is the first
cache entry (in iteration order) whose key contains the cleaned address
as a substring. An address present verbatim as a (lowercased) capability
name always resolves to that capability, by the first conjunct. -/
theorem resolver_order (cache : Registry) (oscAddress : String) :
    (∀ info, dict_get cache (clean_address oscAddress) = some info →
      find_method cache oscAddress = some info) ∧
    (dict_get cache (clean_address oscAddress) = none →
      ∀ info, dict_get cache ("exec" ++ clean_address oscAddress) = some info →
        find_method cache oscAddress = some info) ∧
    (dict_get cache (clean_address oscAddress) = none →
      dict_get cache ("exec" ++ clean_address oscAddress) = none →
      ∀ info, dict_get cache ("set" ++ clean_address oscAddress) = some info →
        find_method cache oscAddress = some info) ∧
    (dict_get cache (clean_address oscAddress) = none →
      dict_get cache ("exec" ++ clean_address oscAddress) = none →
      dict_get cache ("set" ++ clean_address oscAddress) = none →
      ∀ info, dict_get cache ("get" ++ clean_address oscAddress) = some info →
        find_method cache oscAddress = some info) ∧
    (dict_get cache (clean_address oscAddress) = none →
      dict_get cache ("exec" ++ clean_address oscAddress) = none →
      dict_get cache ("set" ++ clean_address oscAddress) = none →
      dict_get cache ("get" ++ clean_address oscAddress) = none →
      find_method cache oscAddress =
        (cache.find? (fun p => str_contains p.1 (clean_address oscAddress))).map
          Prod.snd) := by
  unfold find_method
  refine ⟨?_, ?_, ?_, ?_, ?_⟩ <;> intros <;> simp_all

/-- Witness for C3: `/PreviewInput` is absent exactly and under `exec`,
and resolves through the `set` prefix to `setPreviewInput`. -/
theorem resolver_order_witness :
    find_method [("cut", ⟨"cut", []⟩),
                 ("setpreviewinput", ⟨"setPreviewInput", ["videoSource"]⟩)]
      "/PreviewInput" = some ⟨"setPreviewInput", ["videoSource"]⟩ :=
  (resolver_order
    [("cut", ⟨"cut", []⟩), ("setpreviewinput", ⟨"setPreviewInput", ["videoSource"]⟩)]
    "/PreviewInput").2.2.1 (by decide) (by decide)
    ⟨"setPreviewInput", ["videoSource"]⟩ (by decide)

/-- C2: the adapter's shape precedence. A one-parameter capability with
at least one argument is always invoked with only the first argument
(final conjunct: exactly `[args[0]]`), before the exact-arity,
zero-parameter and truncation branches are even considered; the
remaining branches apply in that order only when the earlier guards
fail. -/
theorem adapter_precedence {α : Type} (params : List String) (args : List α) :
    (params.length = 1 → 1 ≤ args.length →
      adapt_call params args = ("Single parameter", args.take 1)) ∧
    (¬(params.length = 1 ∧ 1 ≤ args.length) → params.length = args.length →
      adapt_call params args = ("Direct parameters", args)) ∧
    (¬(params.length = 1 ∧ 1 ≤ args.length) → params.length ≠ args.length →
      params.length = 0 → adapt_call params args = ("No parameters", [])) ∧
    (¬(params.length = 1 ∧ 1 ≤ args.length) → params.length ≠ args.length →
      params.length ≠ 0 →
      adapt_call params args = ("Partial parameters", args.take params.length)) ∧
    (∀ a rest, params.length = 1 → args = a :: rest →
      adapt_call params args = ("Single parameter", [a])) := by
  unfold adapt_call
  refine ⟨?_, ?_, ?_, ?_, ?_⟩ <;> intros <;> simp_all

/-- Witness for C2: one declared parameter, two supplied arguments —
the call receives exactly the first argument. -/
theorem adapter_precedence_witness :
    adapt_call ["videoSource"] [(2 : Int), 7] = ("Single parameter", [2]) :=
  (adapter_precedence ["videoSource"] [(2 : Int), 7]).2.2.2.2 2 [7] rfl rfl

/-- C4: a literal `/ping` raw address is acknowledged as a no-op by the
raw ATEM handler: for every registry (even one containing a matching
`ping` capability) and every argument list, no lookup outcome matters
and no capability is invoked. -/
theorem ping_is_noop (cache : Registry) (args : List String) :
    handle_raw_atem_message cache "/ping" args = [] := rfl

/-- C7: when neither the exact, the `exec`/`set`/`get`-prefixed, nor the
substring lookup matches, the resolver returns `none` (it is a total
function, so no exception), and both raw handlers return having invoked
nothing. -/
theorem unresolved_address_dropped (cache : Registry) (oscAddress : String)
    (args : List String)
    (hExact : dict_get cache (clean_address oscAddress) = none)
    (hExec : dict_get cache ("exec" ++ clean_address oscAddress) = none)
    (hSet : dict_get cache ("set" ++ clean_address oscAddress) = none)
    (hGet : dict_get cache ("get" ++ clean_address oscAddress) = none)
    (hSub : cache.find? (fun p => str_contains p.1 (clean_address oscAddress)) = none) :
    find_method cache oscAddress = none ∧
    handle_raw_atem_message cache oscAddress args = [] ∧
    handle_raw_hyperdeck_message cache oscAddress args = [] := by
  have hfind : find_method cache oscAddress = none := by
    unfold find_method
    simp_all
    exact hSub
  exact ⟨hfind, by simp [handle_raw_atem_message, hfind],
         by simp [handle_raw_hyperdeck_message, hfind]⟩

/-- Witness for C7: `/unknownthing` against a one-entry registry. -/
theorem unresolved_address_dropped_witness :
    find_method [("cut", ⟨"cut", []⟩)] "/unknownthing" = none ∧
    handle_raw_atem_message [("cut", ⟨"cut", []⟩)] "/unknownthing" [] = [] ∧
    handle_raw_hyperdeck_message [("cut", ⟨"cut", []⟩)] "/unknownthing" [] = [] :=
  unresolved_address_dropped [("cut", ⟨"cut", []⟩)] "/unknownthing" []
    (by decide) (by decide) (by decide) (by decide) (by decide)

/-- C1 (code evaluated at the failing input): the Switcher registry
contains the zero-parameter capability `cut`, yet `handle_osc_message`
on address `/cut` produces no effect and no error — it falls through
every routing branch without consulting the resolver or invoking
anything, although the handler's docstring says it routes OSC messages
to the appropriate ATEM methods. -/
theorem default_address_not_routed :
    dict_get [("cut", ⟨"cut", []⟩)] "cut" = some ⟨"cut", []⟩ ∧
    handle_osc_message [("cut", ⟨"cut", []⟩)] [] "192.168.1.240" "/cut" [] =
      ([], none) := ⟨rfl, rfl⟩

/-- C5: `/hd/load_clip` with a first argument clears the recorder's
clip list and then adds that clip, in that order, with no other effect;
with an empty argument list the message is rejected before any
collaborator call. -/
theorem load_clip_order (atemCache hdCache : Registry) (host : String)
    (args : List String) :
    (∀ filePath rest, args = filePath :: rest →
      handle_osc_message atemCache hdCache host "/hd/load_clip" args =
        ([Effect.hdClearClips, Effect.hdAddClip filePath], none)) ∧
    (args = [] →
      handle_osc_message atemCache hdCache host "/hd/load_clip" args = ([], none)) := by
  constructor
  · rintro filePath rest rfl
    rfl
  · rintro rfl
    rfl

/-- Witness for C5: loading `/media/a.mov` clears then adds. -/
theorem load_clip_order_witness :
    handle_osc_message [] [] "192.168.1.240" "/hd/load_clip" ["/media/a.mov"] =
      ([Effect.hdClearClips, Effect.hdAddClip "/media/a.mov"], none) :=
  (load_clip_order [] [] "192.168.1.240" ["/media/a.mov"]).1 "/media/a.mov" [] rfl

/-- C6: the side-channel wire format. `/atem/stream_on` with url and
key sends exactly `stream start: url: <url> key: <key>\n` to port 9993
of the switcher host, and `/atem/record_on`, `/atem/record_off`,
`/atem/stream_off` send exactly `record\n`, `stop\n`, `stream stop\n`. -/
theorem side_channel_commands (atemCache hdCache : Registry) (host url key : String)
    (extra args : List String) :
    handle_osc_message atemCache hdCache host "/atem/stream_on" (url :: key :: extra) =
      ([Effect.connect host 9993,
        Effect.send ("stream start: url: " ++ url ++ " key: " ++ key ++ "\n")], none) ∧
    handle_osc_message atemCache hdCache host "/atem/record_on" args =
      ([Effect.connect host 9993, Effect.send "record\n"], none) ∧
    handle_osc_message atemCache hdCache host "/atem/record_off" args =
      ([Effect.connect host 9993, Effect.send "stop\n"], none) ∧
    handle_osc_message atemCache hdCache host "/atem/stream_off" args =
      ([Effect.connect host 9993, Effect.send "stream stop\n"], none) :=
  ⟨rfl, rfl, rfl, rfl⟩

/-- C10: `/atem/stream_on` with fewer than two arguments connects to the
side channel and then dies on the uncaught index access `args[0]` or
`args[1]`: the connection has been opened but no command byte is ever
sent on it. -/
theorem stream_on_underflow (atemCache hdCache : Registry) (host : String)
    (args : List String) (hlen : args.length < 2) :
    handle_osc_message atemCache hdCache host "/atem/stream_on" args =
      ([Effect.connect host 9993], some PyErr.indexError) := by
  rcases args with _ | ⟨u, _ | ⟨v, rest⟩⟩
  · rfl
  · rfl
  · exfalso
    simp only [List.length_cons] at hlen
    omega

/-- Witness for C10: a lone url argument opens the connection and then
fails with IndexError, sending nothing. -/
theorem stream_on_underflow_witness :
    handle_osc_message [] [] "192.168.1.240" "/atem/stream_on" ["rtmp://x"] =
      ([Effect.connect "192.168.1.240" 9993], some PyErr.indexError) :=
  stream_on_underflow [] [] "192.168.1.240" ["rtmp://x"] (by decide)

/-- C9: `get_available_methods` reads the nonexistent attribute
`_method_cache` — the instance attribute table (whatever the two real
caches contain) has no such name — so the call always raises
AttributeError and can never return a list. -/
theorem get_available_methods_always_raises (atemKeys hdKeys : List String) :
    get_available_methods (mapper_instance_attrs atemKeys hdKeys) =
      Except.error PyErr.attributeError ∧
    (mapper_instance_attrs atemKeys hdKeys).all
      (fun p => !(p.1 == "_method_cache")) = true :=
  ⟨rfl, rfl⟩

end OSCtoAtem

namespace OSCtoAtem

example : clean_address "/cut" = "cut" := by decide
example : clean_address "//SetPreviewInput" = "setpreviewinput" := by decide
example : str_contains "setpreviewinput" "preview" = true := by decide
example : find_method [("cut", ⟨"cut", []⟩)] "/cut" = some ⟨"cut", []⟩ := by decide
example : find_method [("setpreviewinput", ⟨"setPreviewInput", ["videoSource"]⟩)]
    "/PreviewInput" = some ⟨"setPreviewInput", ["videoSource"]⟩ := by decide
example : adapt_call ["x"] [(1 : Nat), 2, 3] = ("Single parameter", [1]) := by decide
example : handle_raw_atem_message [("ping", ⟨"ping", []⟩)] "/ping" [] = [] := by decide
example : handle_osc_message [("cut", ⟨"cut", []⟩)] [] "1.2.3.4" "/cut" [] = ([], none) := by
  decide
example : handle_osc_message [] [] "h" "/atem/stream_on" ["rtmp://x", "key1"] =
    ([Effect.connect "h" 9993,
      Effect.send "stream start: url: rtmp://x key: key1\n"], none) := by decide
example : handle_osc_message [] [] "h" "/atem/stream_on" ["u"] =
    ([Effect.connect "h" 9993], some PyErr.indexError) := by decide
example : get_available_methods (mapper_instance_attrs ["cut"] []) =
    Except.error PyErr.attributeError := rfl

end OSCtoAtem
